import Mathlib

/-!
Verification of the Ourbot team-application Telegram bot.

The Python sources (`config.py`, `data_manager.py`, `handlers.py`) are
shallowly embedded below.  Timestamps, which the Python code stores as ISO
strings and compares by string order (order-isomorphic to chronological
order for well-formed ISO timestamps) or as parsed datetimes, are modelled
as natural numbers counting seconds.  File writes are modelled by boolean
oracles (`wA`, `wB`): the code's `_save_json` either succeeds or fails, and
the in-memory state transformation is independent of that outcome.
-/

namespace Ourbot

/-- From `config.py`: `TEAMS` dictionary mapping team ids to display names. -/
def TEAMS : List (String × String) :=
  [("team_exams", "تيم الاختبارات"),
   ("team_collections", "تيم التجميعات"),
   ("team_support", "تيم الدعم الفني")]

/-- From `config.py`: `COOLDOWN_HOURS = 24`. -/
def COOLDOWN_HOURS : Nat := 24

/-- The cooldown window in seconds (`timedelta(hours=COOLDOWN_HOURS)`). -/
def COOLDOWN_SECONDS : Nat := COOLDOWN_HOURS * 3600

/-- Placeholder display name used by the handlers: `TEAMS.get(team_id, "غير معروف")`. -/
def UNKNOWN_TEAM : String := "غير معروف"

/-! ## Contact-number validation (`handlers.py`, `validate_whatsapp_number`) -/

/-- The characters removed before matching: the handler substitutes the
empty string for every whitespace character, hyphen and parenthesis before
trying the patterns. -/
def isSeparator (c : Char) : Bool :=
  c.isWhitespace || c == '-' || c == '(' || c == ')'

/-- The cleaned number: the input with separators removed. -/
def cleanNumber (s : String) : List Char :=
  s.data.filter (fun c => !(isSeparator c))

/-- The group `(1[0125]|10|11|12|15)[0-9]{8}` of the Egyptian pattern:
a `'1'` followed by one of `0,1,2,5`, then exactly eight digits. -/
def egyptCore (cs : List Char) : Bool :=
  match cs with
  | '1' :: d :: rest =>
      (d == '0' || d == '1' || d == '2' || d == '5') &&
      rest.length == 8 && rest.all Char.isDigit
  | _ => false

/-- Egyptian pattern `^(\+?20(1[0125]|10|11|12|15)[0-9]{8}|0(1[0125]|10|11|12|15)[0-9]{8})$`. -/
def matchEgyptian (cs : List Char) : Bool :=
  match cs with
  | '+' :: '2' :: '0' :: rest => egyptCore rest
  | '2' :: '0' :: rest => egyptCore rest
  | '0' :: rest => egyptCore rest
  | _ => false

/-- The group `(5[0-9])[0-9]{7}` of the Saudi pattern:
a `'5'` followed by a digit, then exactly seven digits. -/
def saudiCore (cs : List Char) : Bool :=
  match cs with
  | '5' :: d :: rest =>
      d.isDigit && rest.length == 7 && rest.all Char.isDigit
  | _ => false

/-- Saudi pattern `^(\+?966(5[0-9])[0-9]{7}|0(5[0-9])[0-9]{7})$`. -/
def matchSaudi (cs : List Char) : Bool :=
  match cs with
  | '+' :: '9' :: '6' :: '6' :: rest => saudiCore rest
  | '9' :: '6' :: '6' :: rest => saudiCore rest
  | '0' :: rest => saudiCore rest
  | _ => false

/-- From `handlers.py`, the contact-number validator: strip separators,
then try the Egyptian pattern and the Saudi pattern. -/
def validate_whatsapp_number (s : String) : Bool :=
  matchEgyptian (cleanNumber s) || matchSaudi (cleanNumber s)

/-! ## Data model (`data_manager.py`) -/

/-- The `user_info` sub-record captured by `team_selection_callback`. -/
structure UserInfo where
  user_id : Nat
  first_name : String
  last_name : String
  username : String
  deriving DecidableEq

/-- A stored application record (`_validate_application` requires
`user_info`, `selected_team`, `team_name`, `reason`, `experience`,
`timestamp`; `save_application` adds `id`). -/
structure Application where
  user_info : UserInfo
  selected_team : String
  team_name : String
  gender : String
  reason : String
  experience : String
  whatsapp_number : Option String
  timestamp : Nat
  id : Option String
  deriving DecidableEq

/-- One entry of a user's `applications` summary list. -/
structure AppSummary where
  id : Option String
  team_id : String
  team_name : String
  timestamp : Nat
  deriving DecidableEq

/-- A per-user record of `users.json` (`_validate_user_data` requires
`first_name`, `first_seen`, `applications`). -/
structure UserRecord where
  first_name : String
  last_name : String
  username : String
  first_seen : Nat
  applications : List AppSummary
  total_applications : Nat
  last_active : Option Nat
  deriving DecidableEq

/-- The in-memory state of `DataManager`: `applications`, `users`
(a dict keyed by `str(user_id)`, modelled as an association list) and
`banned_users` (a list of id strings). -/
structure DataManager where
  applications : List Application
  users : List (String × UserRecord)
  banned_users : List String
  deriving DecidableEq

/-- From `data_manager.py`: a user is banned when the decimal string of
the id is a member of the banned list. -/
def DataManager.is_user_banned (dm : DataManager) (user_id : Nat) : Bool :=
  dm.banned_users.contains (toString user_id)

/-- Whether an application record matches `(user_id, team_id)` — the test
used by `has_user_applied` and `can_user_reapply`. -/
def matchesApp (user_id : Nat) (team_id : String) (a : Application) : Bool :=
  a.user_info.user_id == user_id && a.selected_team == team_id

/-- From `data_manager.py`: true iff some stored application matches both
fields. -/
def DataManager.has_user_applied (dm : DataManager) (user_id : Nat)
    (team_id : String) : Bool :=
  dm.applications.any (matchesApp user_id team_id)

/-- The loop of `can_user_reapply` that finds the latest matching
application: `latest` is replaced whenever a matching record has a strictly
larger timestamp. -/
def latestStep (user_id : Nat) (team_id : String)
    (acc : Option Application) (a : Application) : Option Application :=
  if matchesApp user_id team_id a then
    match acc with
    | none => some a
    | some l => if l.timestamp < a.timestamp then some a else acc
  else acc

/-- The result of the latest-application scan in `can_user_reapply`. -/
def latestMatching (apps : List Application) (user_id : Nat)
    (team_id : String) : Option Application :=
  apps.foldl (latestStep user_id team_id) none

/-- From `data_manager.py`: reapplying is allowed when no prior
application exists; otherwise `now` is compared against the latest
matching application's timestamp plus the cooldown (allowed iff `now` is
at or past the cooldown end). -/
def DataManager.can_user_reapply (dm : DataManager) (user_id : Nat)
    (team_id : String) (now : Nat) : Bool :=
  if !(dm.has_user_applied user_id team_id) then true
  else
    match latestMatching dm.applications user_id team_id with
    | none => true
    | some latest => decide (latest.timestamp + COOLDOWN_SECONDS ≤ now)

/-- The fresh user record created by `save_application` when the key is
absent from `users`. -/
def freshUser (a : Application) : UserRecord :=
  { first_name := a.user_info.first_name
    last_name := a.user_info.last_name
    username := a.user_info.username
    first_seen := a.timestamp
    applications := []
    total_applications := 0
    last_active := none }

/-- The summary appended to the user's `applications` list by
`save_application`. -/
def summaryOf (a : Application) : AppSummary :=
  { id := a.id
    team_id := a.selected_team
    team_name := a.team_name
    timestamp := a.timestamp }

/-- The per-user mutation of `save_application`: append the summary to the
user's list, recompute `total_applications` from that list's length, set
`last_active` to the application's timestamp. -/
def applySummary (u : UserRecord) (a : Application) : UserRecord :=
  let apps := u.applications ++ [summaryOf a]
  { u with
      applications := apps
      total_applications := apps.length
      last_active := some a.timestamp }

/-- The `users` update of `save_application`: insert a fresh record when
`str(user_id)` is not yet a key, then mutate the entry at that key. -/
def saveUsersUpdate (users : List (String × UserRecord)) (a : Application) :
    List (String × UserRecord) :=
  let key := toString a.user_info.user_id
  let users0 :=
    if (users.lookup key).isNone then users ++ [(key, freshUser a)]
    else users
  users0.map (fun p => if p.1 == key then (p.1, applySummary p.2 a) else p)

/-- From `data_manager.py`, saving an application: assigns the unique id
built from the user id, the team id and the integer save instant joined by
underscores, appends the record to `applications`,
creates the user record if missing, appends the summary, recomputes
`total_applications`, sets `last_active`, then writes both files.  The
write outcomes are the oracles `wA` (applications file) and `wB` (users
file); the returned flag is their conjunction, while the in-memory update
has already happened. -/
def DataManager.save_application (dm : DataManager) (appData : Application)
    (now : Nat) (wA wB : Bool) : Bool × DataManager :=
  let appId := toString appData.user_info.user_id ++ "_" ++
    appData.selected_team ++ "_" ++ toString now
  let a := { appData with id := some appId }
  (wA && wB,
    { dm with
        applications := dm.applications ++ [a]
        users := saveUsersUpdate dm.users a })

/-- The `users` update of `delete_application`: drop from every user's
summary list the entries whose id field equals the target id and recompute
every `total_applications`. -/
def deleteUsersUpdate (users : List (String × UserRecord))
    (application_id : String) : List (String × UserRecord) :=
  users.map (fun p =>
    let apps := p.2.applications.filter (fun s => s.id != some application_id)
    (p.1, { p.2 with applications := apps, total_applications := apps.length }))

/-- From `data_manager.py`, deleting an application: keeps the records
whose id field differs from the target id (a record with no id is always
kept); if nothing was removed it returns failure before touching `users`;
otherwise every user's summary list is filtered the same way and every
`total_applications` recomputed, then both files are written. -/
def DataManager.delete_application (dm : DataManager) (application_id : String)
    (wA wB : Bool) : Bool × DataManager :=
  let newApps := dm.applications.filter (fun a => a.id != some application_id)
  if newApps.length == dm.applications.length then
    (false, { dm with applications := newApps })
  else
    (wA && wB,
      { dm with
          applications := newApps
          users := deleteUsersUpdate dm.users application_id })

/-- The store invariant claimed by the spec: every user record's
`total_applications` equals the length of its summary list. -/
def usersInvariant (dm : DataManager) : Prop :=
  ∀ p ∈ dm.users, p.2.total_applications = p.2.applications.length

instance (dm : DataManager) : Decidable (usersInvariant dm) := by
  unfold usersInvariant; infer_instance

/-! ## Conversation entry (`handlers.py`) -/

/-- The conversation state stored by `team_selection_callback` in
`context.user_data` when an applicant picks a team. -/
structure ConvEntry where
  selected_team : String
  team_name : String
  user_id : Nat
  deriving DecidableEq

/-- Modelled from the spec: the ban gate at conversation entry.  The
repository's current `handlers.py` — the revision `main.py` imports
`ban_command` and `unban_command` from, matching `data_manager.py`'s ban
persistence — is not the revision present here, which predates the ban
feature.  Spec: "banned applicants are rejected before entry with no state
created."  The non-banned branch follows `team_selection_callback`: it
stores the selected team id, the display name `TEAMS.get(team_id, "غير
معروف")` and the applicant identity in the fresh conversation state. -/
def application_entry (dm : DataManager) (user_id : Nat)
    (team_id : String) : Option ConvEntry :=
  if dm.is_user_banned user_id then none
  else some
    { selected_team := team_id
      team_name := ((TEAMS.lookup team_id).getD UNKNOWN_TEAM)
      user_id := user_id }

/-! ## Notification and decision (`handlers.py`) -/

/-- From `send_admin_notification`: callback data of the accept action —
the word accept, the applicant id and the team id joined by underscores. -/
def acceptCallbackData (a : Application) : String :=
  "accept_" ++ toString a.user_info.user_id ++ "_" ++ a.selected_team

/-- From `send_admin_notification`: callback data of the reject action —
the word reject, the applicant id and the team id joined by underscores. -/
def rejectCallbackData (a : Application) : String :=
  "reject_" ++ toString a.user_info.user_id ++ "_" ++ a.selected_team

/-- Python `str.split(sep)` for a single-character separator: splits at
every occurrence, keeping empty parts (`"".split("_") == [""]`). -/
def splitChar (sep : Char) : List Char → List (List Char)
  | [] => [[]]
  | c :: rest =>
      let r := splitChar sep rest
      if c == sep then [] :: r
      else
        match r with
        | [] => [[c]]
        | h :: t => (c :: h) :: t

/-- Python `callback_data.split("_")` as a list of strings. -/
def pySplitUnderscore (s : String) : List String :=
  (splitChar '_' s.data).map (fun cs => String.mk cs)

/-- Python `s.startswith(p)`, on the character lists. -/
def pyStartsWith : List Char → List Char → Bool
  | [], _ => true
  | _, [] => false
  | p :: ps, c :: cs => p == c && pyStartsWith ps cs

/-- Whether `pat` occurs as a contiguous substring of `s`. -/
def occursIn (pat : List Char) : List Char → Bool
  | [] => pat.isEmpty
  | c :: cs => pyStartsWith pat (c :: cs) || occursIn pat cs

/-- From `handle_admin_decision`: team-name resolution.  The handler
splits the callback data on underscores, takes the token at index 2 as the
team id and resolves the display name from the static table, defaulting to
the placeholder. -/
def decisionTeamName (callback_data : String) : String :=
  let parts := pySplitUnderscore callback_data
  let team_id := parts.getD 2 ""
  ((TEAMS.lookup team_id).getD UNKNOWN_TEAM)

/-- The observable effects of one `handle_admin_decision` invocation. -/
structure DecisionEffects where
  sentToUser : Bool
  auditEdited : Bool
  loggedError : Bool
  alertShown : Bool
  deriving DecidableEq

/-- From `handlers.py`, the decision control flow: the chat-id gate, the callback
prefix gate, then — inside a single `try` block — the decision message is
sent to the applicant and the audit line appended by editing the reviewer
notification.  `deliverOk` is the oracle for the send to the applicant: if
it raises, control jumps to the `except` handler, which logs the error and
shows an alert; the audit edit is never reached. -/
def handle_admin_decision (admin_group_id chat_id : Int)
    (callback_data : String) (deliverOk : Bool) : DecisionEffects :=
  if chat_id != admin_group_id then
    { sentToUser := false, auditEdited := false
      loggedError := false, alertShown := true }
  else if !(pyStartsWith "accept_".data callback_data.data ||
            pyStartsWith "reject_".data callback_data.data) then
    { sentToUser := false, auditEdited := false
      loggedError := false, alertShown := false }
  else if deliverOk then
    { sentToUser := true, auditEdited := true
      loggedError := false, alertShown := false }
  else
    { sentToUser := false, auditEdited := false
      loggedError := true, alertShown := true }

/-! ## Live relay (`handlers.py`) -/

/-- One entry of `active_conversations`: the reviewer id, the reviewer
display name and the active flag. -/
structure RelaySession where
  admin_id : Nat
  admin_name : String
  active : Bool
  deriving DecidableEq

/-- Lookup into `active_conversations`, keyed by applicant id. -/
def lookupSession (sessions : List (Nat × RelaySession)) (user_id : Nat) :
    Option RelaySession :=
  sessions.lookup user_id

/-- The guard shared by `handle_user_reply` and `handle_unknown_message`:
the applicant has an entry in `active_conversations` and its active flag is
set. -/
def hasActiveSession (sessions : List (Nat × RelaySession))
    (user_id : Nat) : Bool :=
  match lookupSession sessions user_id with
  | some s => s.active
  | none => false

/-- From `handlers.py`: the applicant-reply relay returns silently when the applicant has no active
session; otherwise forwards the message to the review channel.  The result
records whether the message was forwarded. -/
def handle_user_reply (sessions : List (Nat × RelaySession))
    (user_id : Nat) : Bool :=
  if hasActiveSession sessions user_id then true else false

/-- Outcome of routing a free-text applicant message outside the form. -/
inductive RelayOutcome where
  | forwardedToChannel
  | genericReply
  | nothing
  deriving DecidableEq

/-- From `handlers.py`: an applicant message outside the form goes to
`handle_user_reply` when the applicant has an active session, and is
answered with the generic `UNKNOWN_MESSAGE` ("use /start") text otherwise. -/
def handle_unknown_message (sessions : List (Nat × RelaySession))
    (user_id : Nat) : RelayOutcome :=
  if hasActiveSession sessions user_id then
    if handle_user_reply sessions user_id then RelayOutcome.forwardedToChannel
    else RelayOutcome.nothing
  else RelayOutcome.genericReply

/-! ## Sample data shared by the concrete witnesses -/

/-- A sample applicant identity. -/
def sampleUserInfo : UserInfo :=
  { user_id := 123, first_name := "Ahmed", last_name := "", username := "ahmed" }

/-- A sample application to `team_exams` at time 100. -/
def sampleApplication : Application :=
  { user_info := sampleUserInfo
    selected_team := "team_exams"
    team_name := "تيم الاختبارات"
    gender := "ذكر"
    reason := "0123456789"
    experience := "abcde"
    whatsapp_number := none
    timestamp := 100
    id := some "123_team_exams_100" }

/-- A later sample application by the same applicant to the same team. -/
def sampleApplicationLater : Application :=
  { sampleApplication with timestamp := 200, id := some "123_team_exams_200" }

/-- A sample user record consistent with the two sample applications. -/
def sampleUserRecord : UserRecord :=
  { first_name := "Ahmed"
    last_name := ""
    username := "ahmed"
    first_seen := 100
    applications := [summaryOf sampleApplication, summaryOf sampleApplicationLater]
    total_applications := 2
    last_active := some 200 }

/-- A sample store holding the two applications and a banned id. -/
def sampleDM : DataManager :=
  { applications := [sampleApplication, sampleApplicationLater]
    users := [("123", sampleUserRecord)]
    banned_users := ["42"] }

end Ourbot

namespace Ourbot

/-! ## Helper lemmas -/

/-- One `latestStep` maps a `some` accumulator to a `some` result. -/
theorem latestStep_some (uid : Nat) (tid : String) (l a : Application) :
    ∃ m, latestStep uid tid (some l) a = some m := by
  unfold latestStep
  by_cases hm : matchesApp uid tid a = true <;>
    by_cases ht : l.timestamp < a.timestamp <;>
      simp [hm, ht]

/-- Folding `latestStep` from a `some` accumulator yields a `some`. -/
theorem foldl_latestStep_some (uid : Nat) (tid : String) :
    ∀ (apps : List Application) (l : Application),
      ∃ m, apps.foldl (latestStep uid tid) (some l) = some m := by
  intro apps
  induction apps with
  | nil => intro l; exact ⟨l, rfl⟩
  | cons a rest ih =>
    intro l
    obtain ⟨m0, hm0⟩ := latestStep_some uid tid l a
    rw [List.foldl_cons, hm0]
    exact ih m0

/-- Exhaustive case analysis of one `latestStep`. -/
theorem latestStep_cases (uid : Nat) (tid : String)
    (acc : Option Application) (a : Application) :
    (matchesApp uid tid a = false ∧ latestStep uid tid acc a = acc) ∨
    (matchesApp uid tid a = true ∧ acc = none ∧
      latestStep uid tid acc a = some a) ∨
    (∃ l, matchesApp uid tid a = true ∧ acc = some l ∧
      l.timestamp < a.timestamp ∧ latestStep uid tid acc a = some a) ∨
    (∃ l, matchesApp uid tid a = true ∧ acc = some l ∧
      ¬ l.timestamp < a.timestamp ∧ latestStep uid tid acc a = some l) := by
  unfold latestStep
  by_cases hm : matchesApp uid tid a = true
  · cases acc with
    | none => exact Or.inr (Or.inl ⟨hm, rfl, by simp [hm]⟩)
    | some l =>
      by_cases ht : l.timestamp < a.timestamp
      · exact Or.inr (Or.inr (Or.inl ⟨l, hm, rfl, ht, by simp [hm, ht]⟩))
      · exact Or.inr (Or.inr (Or.inr ⟨l, hm, rfl, ht, by simp [hm, ht]⟩))
  · rw [Bool.not_eq_true] at hm
    exact Or.inl ⟨hm, by simp [hm]⟩

/-- Characterization of the latest-application fold in `can_user_reapply`:
if the fold produces `some m` (starting from an accumulator whose content,
if any, matches), then `m` matches `(uid, tid)`, comes from the
accumulator or the list, and its timestamp bounds every matching record's
timestamp and the accumulator's. -/
theorem foldl_latestStep_spec (uid : Nat) (tid : String) :
    ∀ (apps : List Application) (acc : Option Application),
      (∀ l, acc = some l → matchesApp uid tid l = true) →
      ∀ m, apps.foldl (latestStep uid tid) acc = some m →
        matchesApp uid tid m = true ∧
        (acc = some m ∨ m ∈ apps) ∧
        (∀ b ∈ apps, matchesApp uid tid b = true →
          b.timestamp ≤ m.timestamp) ∧
        (∀ l, acc = some l → l.timestamp ≤ m.timestamp) := by
  intro apps
  induction apps with
  | nil =>
    intro acc hacc m hm
    simp only [List.foldl_nil] at hm
    refine ⟨hacc m hm, Or.inl hm, by simp, fun l hl => ?_⟩
    rw [hl] at hm
    cases hm
    exact Nat.le_refl _
  | cons a rest ih =>
    intro acc hacc m hm
    rw [List.foldl_cons] at hm
    have hacc2 : ∀ l, latestStep uid tid acc a = some l →
        matchesApp uid tid l = true := by
      intro l hl
      rcases latestStep_cases uid tid acc a with
        ⟨_, he⟩ | ⟨hma, _, he⟩ | ⟨l0, hma, _, _, he⟩ | ⟨l0, hma, hacc0, _, he⟩
      · rw [he] at hl; exact hacc l hl
      · rw [he] at hl
        injection hl with h2
        rw [← h2]; exact hma
      · rw [he] at hl
        injection hl with h2
        rw [← h2]; exact hma
      · rw [he] at hl
        injection hl with h2
        rw [← h2]; exact hacc l0 hacc0
    obtain ⟨hmm, hor, hub, hle⟩ := ih (latestStep uid tid acc a) hacc2 m hm
    refine ⟨hmm, ?_, ?_, ?_⟩
    · rcases hor with hor | hor
      · rcases latestStep_cases uid tid acc a with
          ⟨_, he⟩ | ⟨_, _, he⟩ | ⟨l0, _, _, _, he⟩ | ⟨l0, _, hacc0, _, he⟩
        · exact Or.inl (he.symm.trans hor)
        · rw [he] at hor
          injection hor with h2
          rw [← h2]
          exact Or.inr (List.mem_cons_self _ _)
        · rw [he] at hor
          injection hor with h2
          rw [← h2]
          exact Or.inr (List.mem_cons_self _ _)
        · rw [he] at hor
          injection hor with h2
          rw [← h2]
          exact Or.inl hacc0
      · exact Or.inr (List.mem_cons_of_mem _ hor)
    · intro b hb hmb
      rcases List.mem_cons.mp hb with hb | hb
      · rcases latestStep_cases uid tid acc a with
          ⟨hma, _⟩ | ⟨_, _, he⟩ | ⟨l0, _, _, _, he⟩ | ⟨l0, _, _, ht, he⟩
        · rw [hb, hma] at hmb; exact Bool.noConfusion hmb
        · rw [hb]; exact hle a he
        · rw [hb]; exact hle a he
        · rw [hb]
          have h1 : a.timestamp ≤ l0.timestamp := Nat.le_of_not_lt ht
          exact Nat.le_trans h1 (hle l0 he)
      · exact hub b hb hmb
    · intro l hl
      rcases latestStep_cases uid tid acc a with
        ⟨_, he⟩ | ⟨_, hacc0, he⟩ | ⟨l0, _, hacc0, ht, he⟩ | ⟨l0, _, hacc0, _, he⟩
      · exact hle l (he.trans hl)
      · rw [hacc0] at hl; exact Option.noConfusion hl
      · rw [hacc0] at hl
        injection hl with h2
        rw [← h2]
        exact Nat.le_trans (Nat.le_of_lt ht) (hle a he)
      · rw [hacc0] at hl
        injection hl with h2
        rw [← h2]
        exact hle l0 he

/-- If `a` is a matching application whose timestamp is maximal among
matching applications, the latest-application scan returns a record with
exactly that timestamp. -/
theorem latestMatching_spec (apps : List Application) (uid : Nat)
    (tid : String) (a : Application) (ha : a ∈ apps)
    (hma : matchesApp uid tid a = true)
    (hmax : ∀ b ∈ apps, matchesApp uid tid b = true →
      b.timestamp ≤ a.timestamp) :
    ∃ m, latestMatching apps uid tid = some m ∧
      m.timestamp = a.timestamp := by
  obtain ⟨l1, l2, rfl⟩ := List.append_of_mem ha
  have hstep : ∃ m0, latestStep uid tid
      (l1.foldl (latestStep uid tid) none) a = some m0 := by
    cases hacc : l1.foldl (latestStep uid tid) none with
    | none => exact ⟨a, by simp [latestStep, hma]⟩
    | some l => exact latestStep_some uid tid l a
  obtain ⟨m0, hm0⟩ := hstep
  obtain ⟨m, hm⟩ := foldl_latestStep_some uid tid l2 m0
  have hfold : latestMatching (l1 ++ a :: l2) uid tid = some m := by
    unfold latestMatching
    rw [List.foldl_append, List.foldl_cons, hm0, hm]
  have hspec := foldl_latestStep_spec uid tid (l1 ++ a :: l2) none
    (by intro l hl; cases hl) m (by
      unfold latestMatching at hfold
      exact hfold)
  obtain ⟨hmm, hor, hub, _⟩ := hspec
  have hm_mem : m ∈ l1 ++ a :: l2 := by
    rcases hor with hor | hor
    · cases hor
    · exact hor
  refine ⟨m, hfold, Nat.le_antisymm (hmax m hm_mem hmm) ?_⟩
  exact hub a (by simp) hma

/-- The user-map update of `save_application` preserves the
total-equals-length property of every entry. -/
theorem saveUsersUpdate_invariant (users : List (String × UserRecord))
    (a : Application)
    (h : ∀ p ∈ users, p.2.total_applications = p.2.applications.length) :
    ∀ p ∈ saveUsersUpdate users a,
      p.2.total_applications = p.2.applications.length := by
  intro p hp
  unfold saveUsersUpdate at hp
  simp only [List.mem_map] at hp
  obtain ⟨q, hq, rfl⟩ := hp
  have h0 : q.2.total_applications = q.2.applications.length := by
    by_cases hl : (users.lookup (toString a.user_info.user_id)).isNone
    · simp only [hl, if_true] at hq
      rcases List.mem_append.mp hq with hq | hq
      · exact h q hq
      · simp only [List.mem_singleton] at hq
        subst hq
        simp [freshUser]
    · simp only [hl, if_false] at hq
      exact h q hq
  by_cases hk : (q.1 == toString a.user_info.user_id) = true
  · simp [hk, applySummary]
  · rw [Bool.not_eq_true] at hk
    simp [hk, h0]

/-- The user-map update of `delete_application` establishes the
total-equals-length property of every entry unconditionally. -/
theorem deleteUsersUpdate_invariant (users : List (String × UserRecord))
    (i : String) :
    ∀ p ∈ deleteUsersUpdate users i,
      p.2.total_applications = p.2.applications.length := by
  intro p hp
  unfold deleteUsersUpdate at hp
  simp only [List.mem_map] at hp
  obtain ⟨q, _, rfl⟩ := hp
  simp

/-! ## Claims -/

/-- C7: the contact-number validator accepts `+201012345678`,
`01012345678`, `+966512345678`, `0512345678` and rejects `123456`,
`+20999999999` and the empty string. -/
theorem c7_contact_validator_vectors :
    validate_whatsapp_number "+201012345678" = true ∧
    validate_whatsapp_number "01012345678" = true ∧
    validate_whatsapp_number "+966512345678" = true ∧
    validate_whatsapp_number "0512345678" = true ∧
    validate_whatsapp_number "123456" = false ∧
    validate_whatsapp_number "+20999999999" = false ∧
    validate_whatsapp_number "" = false := by decide

/-- C9: the validator strips spaces, hyphens and parentheses before
matching, so any input whose separator-stripped form matches the Egyptian
or Saudi mobile pattern is accepted; moreover the validator is insensitive
to re-cleaning (it only ever sees the stripped characters). -/
theorem c9_separators_stripped_before_matching :
    (∀ s : String,
        (matchEgyptian (cleanNumber s) || matchSaudi (cleanNumber s)) = true →
        validate_whatsapp_number s = true) ∧
    (∀ s : String,
        validate_whatsapp_number s =
          validate_whatsapp_number (String.mk (cleanNumber s))) := by
  constructor
  · intro s h
    exact h
  · intro s
    have hclean : cleanNumber (String.mk (cleanNumber s)) = cleanNumber s := by
      simp only [cleanNumber, List.filter_filter]
      congr 1
      funext c
      cases isSeparator c <;> rfl
    simp [validate_whatsapp_number, hclean]

/-- Witness for C9 at the concrete input `"+20 101-234-5678"`. -/
theorem c9_witness :
    (matchEgyptian (cleanNumber "+20 101-234-5678") ||
      matchSaudi (cleanNumber "+20 101-234-5678")) = true ∧
    validate_whatsapp_number "+20 101-234-5678" = true :=
  ⟨by decide,
   c9_separators_stripped_before_matching.1 "+20 101-234-5678" (by decide)⟩

/-- C1: an applicant whose id is in the ban set is rejected at conversation
entry and no conversation state is created (spec-modelled entry gate over
the source `is_user_banned`). -/
theorem c1_banned_rejected_no_state (dm : DataManager) (uid : Nat)
    (tid : String) (h : dm.is_user_banned uid = true) :
    application_entry dm uid tid = none := by
  simp [application_entry, h]

/-- Witness for C1: applicant 42 is banned in the sample store and cannot
start an application. -/
theorem c1_witness :
    sampleDM.is_user_banned 42 = true ∧
    application_entry sampleDM 42 "team_exams" = none :=
  ⟨by decide, c1_banned_rejected_no_state sampleDM 42 "team_exams" (by decide)⟩

/-- C8: a free-text applicant message outside the form conversation is
forwarded to the review channel iff a relay session for that applicant
exists with `active = true`; otherwise the applicant gets the generic
"use /start" response (and nothing is forwarded). -/
theorem c8_forward_iff_active_session (sessions : List (Nat × RelaySession))
    (uid : Nat) :
    ((handle_unknown_message sessions uid = RelayOutcome.forwardedToChannel) ↔
      (∃ s, lookupSession sessions uid = some s ∧ s.active = true)) ∧
    ((¬ ∃ s, lookupSession sessions uid = some s ∧ s.active = true) →
      handle_unknown_message sessions uid = RelayOutcome.genericReply) := by
  unfold handle_unknown_message handle_user_reply hasActiveSession
  cases h : lookupSession sessions uid with
  | none => simp [h]
  | some s =>
    cases ha : s.active with
    | false => simp [h, ha]
    | true => simp [h, ha]

/-- Witness for C8: with an active session the message is forwarded, with
an inactive one the generic reply is sent. -/
theorem c8_witness :
    handle_unknown_message [(7, ⟨1, "A", true⟩)] 7 =
      RelayOutcome.forwardedToChannel ∧
    handle_unknown_message [(7, ⟨1, "A", false⟩)] 7 =
      RelayOutcome.genericReply := by
  constructor
  · exact (c8_forward_iff_active_session [(7, ⟨1, "A", true⟩)] 7).1.mpr
      ⟨⟨1, "A", true⟩, by decide, rfl⟩
  · apply (c8_forward_iff_active_session [(7, ⟨1, "A", false⟩)] 7).2
    rintro ⟨s, hs, ha⟩
    have hs2 : s = ⟨1, "A", false⟩ := by
      have := hs
      simp [lookupSession, List.lookup] at this
      exact this.symm
    rw [hs2] at ha
    simp at ha

/-- C10: `save_application` mutates the in-memory state before writing the
files, so when a file write fails it reports failure while the new record
remains in memory and `has_user_applied` subsequently finds it. -/
theorem c10_save_not_atomic_on_write_failure (dm : DataManager)
    (a : Application) (now : Nat) (wA wB : Bool)
    (h : (wA && wB) = false) :
    (dm.save_application a now wA wB).1 = false ∧
    ((dm.save_application a now wA wB).2.has_user_applied
        a.user_info.user_id a.selected_team) = true := by
  constructor
  · simpa [DataManager.save_application] using h
  · simp [DataManager.save_application, DataManager.has_user_applied,
      List.any_append, matchesApp]

/-- Witness for C10: a failed applications-file write on an empty store. -/
theorem c10_witness :
    ((false && true) = false) ∧
    (((DataManager.mk [] [] []).save_application sampleApplication 100
        false true).1 = false ∧
      (((DataManager.mk [] [] []).save_application sampleApplication 100
          false true).2.has_user_applied 123 "team_exams") = true) :=
  ⟨rfl, c10_save_not_atomic_on_write_failure (DataManager.mk [] [] [])
    sampleApplication 100 false true rfl⟩

/-- C6: deleting an application id that matches no stored record returns
failure and leaves the whole store (applications and users) unchanged. -/
theorem c6_delete_missing_id_noop (dm : DataManager) (i : String)
    (wA wB : Bool) (h : ∀ a ∈ dm.applications, a.id ≠ some i) :
    dm.delete_application i wA wB = (false, dm) := by
  unfold DataManager.delete_application
  have hf : dm.applications.filter (fun a => a.id != some i) =
      dm.applications := by
    apply List.filter_eq_self.mpr
    intro a ha
    simpa using h a ha
  simp [hf]

/-- Witness for C6: deleting the absent id `"nope"` from the sample store
is a failing no-op. -/
theorem c6_witness :
    (∀ a ∈ sampleDM.applications, a.id ≠ some "nope") ∧
    sampleDM.delete_application "nope" true true = (false, sampleDM) :=
  ⟨by decide, c6_delete_missing_id_noop sampleDM "nope" true true (by decide)⟩

/-- C3 counterexample: with a failing delivery to the applicant, the
handler logs the error but the audit edit does NOT proceed — refuting the
claim that the edit still happens. -/
theorem c3_counterexample :
    ¬ ((handle_admin_decision (-100) (-100) "accept_123_team_exams"
          false).loggedError = true ∧
       (handle_admin_decision (-100) (-100) "accept_123_team_exams"
          false).auditEdited = true) := by decide

/-- C3 amended: when delivering the decision message to the applicant
fails, the failure is logged and an error alert is shown to the reviewer,
but the audit edit to the published notification does not proceed (the
exception aborts the handler before the edit). -/
theorem c3_amended_delivery_failure_aborts_edit (g : Int) (data : String)
    (h : (pyStartsWith "accept_".data data.data ||
          pyStartsWith "reject_".data data.data) = true) :
    (handle_admin_decision g g data false).loggedError = true ∧
    (handle_admin_decision g g data false).auditEdited = false ∧
    (handle_admin_decision g g data false).alertShown = true ∧
    (handle_admin_decision g g data false).sentToUser = false := by
  simp [handle_admin_decision, h]

/-- Witness for the amended C3 at a concrete reject action. -/
theorem c3_witness :
    (pyStartsWith "accept_".data "reject_5_team_support".data ||
      pyStartsWith "reject_".data "reject_5_team_support".data) = true ∧
    ((handle_admin_decision (-100) (-100) "reject_5_team_support"
        false).loggedError = true ∧
     (handle_admin_decision (-100) (-100) "reject_5_team_support"
        false).auditEdited = false ∧
     (handle_admin_decision (-100) (-100) "reject_5_team_support"
        false).alertShown = true ∧
     (handle_admin_decision (-100) (-100) "reject_5_team_support"
        false).sentToUser = false) :=
  ⟨by decide, c3_amended_delivery_failure_aborts_edit (-100)
    "reject_5_team_support" (by decide)⟩

/-- C4 counterexample: for the sample application the accept action's
parameters do not contain the team display name, and the decision handler
resolves the placeholder even though the static table maps the team id to
its display name and the store holds a matching application carrying that
name — refuting both the "embeds the team display name" part and the
"three-step fallback, placeholder only if all fail" part. -/
theorem c4_counterexample :
    occursIn "تيم الاختبارات".data (acceptCallbackData sampleApplication).data
      = false ∧
    decisionTeamName (acceptCallbackData sampleApplication) = UNKNOWN_TEAM ∧
    TEAMS.lookup "team_exams" = some "تيم الاختبارات" ∧
    sampleDM.applications.any (fun a =>
      matchesApp 123 "team_exams" a && a.team_name == "تيم الاختبارات")
      = true := by decide

/-- C4 amended: the accept/reject action parameters embed only the
applicant id and the team id; the decision handler takes the third
underscore-separated token of the parameters as the team id and resolves
the display name by a single lookup in the static table, defaulting to the
placeholder — and since every configured team id itself contains an
underscore, that token is truncated and the placeholder results for every
configured team. -/
theorem c4_amended_params_and_single_lookup :
    (∀ a : Application,
        acceptCallbackData a =
          "accept_" ++ toString a.user_info.user_id ++ "_" ++ a.selected_team ∧
        rejectCallbackData a =
          "reject_" ++ toString a.user_info.user_id ++ "_" ++ a.selected_team) ∧
    (∀ data : String,
        decisionTeamName data =
          ((TEAMS.lookup ((pySplitUnderscore data).getD 2 "")).getD
            UNKNOWN_TEAM)) ∧
    (∀ p ∈ TEAMS, decisionTeamName ("accept_123_" ++ p.1) = UNKNOWN_TEAM) := by
  refine ⟨fun a => ⟨rfl, rfl⟩, fun data => rfl, ?_⟩
  decide

/-- Witness for the amended C4 at the sample application and the
`team_exams` entry of the static table. -/
theorem c4_witness :
    (acceptCallbackData sampleApplication =
      "accept_" ++ toString (123 : Nat) ++ "_" ++ "team_exams") ∧
    (("team_exams", "تيم الاختبارات") ∈ TEAMS) ∧
    decisionTeamName ("accept_123_" ++ "team_exams") = UNKNOWN_TEAM := by
  refine ⟨(c4_amended_params_and_single_lookup.1 sampleApplication).1, by decide, ?_⟩
  exact c4_amended_params_and_single_lookup.2.2 ("team_exams", "تيم الاختبارات")
    (by decide)

/-- C5: if every user record satisfies `total_applications =
len(summaries)`, then the equality still holds for every user record after
any `save_application` and after any `delete_application`. -/
theorem c5_total_applications_invariant (dm : DataManager)
    (h : usersInvariant dm) :
    (∀ a now wA wB, usersInvariant (dm.save_application a now wA wB).2) ∧
    (∀ i wA wB, usersInvariant (dm.delete_application i wA wB).2) := by
  constructor
  · intro a now wA wB
    intro p hp
    simp only [DataManager.save_application] at hp
    exact saveUsersUpdate_invariant dm.users _ h p hp
  · intro i wA wB
    intro p hp
    simp only [DataManager.delete_application] at hp
    by_cases hlen : ((dm.applications.filter
        (fun x => x.id != some i)).length == dm.applications.length) = true
    · rw [if_pos hlen] at hp
      exact h p hp
    · rw [if_neg hlen] at hp
      exact deleteUsersUpdate_invariant dm.users i p hp

/-- Witness for C5: the sample store satisfies the invariant and keeps it
through a save and a delete. -/
theorem c5_witness :
    usersInvariant sampleDM ∧
    usersInvariant (sampleDM.save_application sampleApplication 300
      true true).2 ∧
    usersInvariant (sampleDM.delete_application "123_team_exams_100"
      true true).2 :=
  ⟨by decide,
   (c5_total_applications_invariant sampleDM (by decide)).1
     sampleApplication 300 true true,
   (c5_total_applications_invariant sampleDM (by decide)).2
     "123_team_exams_100" true true⟩

/-- C2: `can_user_reapply(A, T)` is true when no stored application
matches `(A, T)`; and when `t` is the timestamp of the latest matching
application, it is false for any `now` in `[t, t + 24h)` and true for any
`now` at or after `t + 24h`. -/
theorem c2_cooldown_window (dm : DataManager) (uid : Nat) (tid : String) :
    ((∀ b ∈ dm.applications, matchesApp uid tid b = false) →
      ∀ now, dm.can_user_reapply uid tid now = true) ∧
    (∀ a ∈ dm.applications, matchesApp uid tid a = true →
      (∀ b ∈ dm.applications, matchesApp uid tid b = true →
        b.timestamp ≤ a.timestamp) →
      (∀ now, a.timestamp ≤ now → now < a.timestamp + COOLDOWN_SECONDS →
        dm.can_user_reapply uid tid now = false) ∧
      (∀ now, a.timestamp + COOLDOWN_SECONDS ≤ now →
        dm.can_user_reapply uid tid now = true)) := by
  constructor
  · intro hnone now
    have h : dm.has_user_applied uid tid = false := by
      unfold DataManager.has_user_applied
      rw [List.any_eq_false]
      intro b hb
      simp [hnone b hb]
    unfold DataManager.can_user_reapply
    rw [h]
    rfl
  · intro a ha hma hmax
    obtain ⟨m, hm, hts⟩ :=
      latestMatching_spec dm.applications uid tid a ha hma hmax
    have happ : dm.has_user_applied uid tid = true := by
      unfold DataManager.has_user_applied
      rw [List.any_eq_true]
      exact ⟨a, ha, hma⟩
    constructor
    · intro now h1 h2
      unfold DataManager.can_user_reapply
      rw [happ, hm]
      simp only [Bool.not_true, Bool.false_eq_true, if_false]
      rw [hts]
      simp only [decide_eq_false_iff_not]
      exact Nat.not_le.mpr h2
    · intro now h1
      unfold DataManager.can_user_reapply
      rw [happ, hm]
      simp only [Bool.not_true, Bool.false_eq_true, if_false]
      rw [hts]
      simp only [decide_eq_true_eq]
      exact h1

/-- Witness for C2 on the sample store: a non-matching pair may always
reapply; for the matching pair the latest timestamp is 200, reapplying is
refused at `now = 200` and at `now = 86599`, and allowed at
`now = 86600 = 200 + 24 * 3600`. -/
theorem c2_witness :
    sampleDM.can_user_reapply 6 "team_support" 0 = true ∧
    sampleDM.can_user_reapply 123 "team_exams" 200 = false ∧
    sampleDM.can_user_reapply 123 "team_exams" 86599 = false ∧
    sampleDM.can_user_reapply 123 "team_exams" 86600 = true := by
  have h2 := (c2_cooldown_window sampleDM 123 "team_exams").2
    sampleApplicationLater (by decide) (by decide) (by decide)
  exact ⟨(c2_cooldown_window sampleDM 6 "team_support").1 (by decide) 0,
    h2.1 200 (by decide) (by decide),
    h2.1 86599 (by decide) (by decide),
    h2.2 86600 (by decide)⟩

end Ourbot
